import Mathlib

set_option maxRecDepth 8192

/-!
Shallow embedding of `scripts/fetch_models.py` (fetch zero-cost OpenRouter
models, enrich with artificialanalysis.ai scores, sort, render HTML), and
proofs about it.

Modelling conventions:
* JSON-decoded Python values are modelled by `JValue`; Python `None` and JSON
  `null` (indistinguishable through `dict.get`) are both `JValue.null`.
* Python `float` values are modelled by `PyFloat`: a rational (JSON numbers
  are finite decimals), or one of the special values `nan`, `inf`, `-inf`
  (reachable via `float("nan")` etc.).
* Raising Python code is modelled with `Except PyErr`; a caught exception is
  a `none`/default result at the catching site, exactly where the script has
  a `try`/`except`.
* Python dicts are association lists in insertion order; lookups take the
  first hit (keys are unique in every dict the script builds).
-/

/-- A JSON-decoded Python value (`None`/`null` collapse to `null`). -/
inductive JValue where
  | null
  | jbool (b : Bool)
  | num (q : ℚ)
  | str (s : String)
  | arr (xs : List JValue)
  | obj (kvs : List (String × JValue))

/-- A Python `float`: finite value, or one of the specials. -/
inductive PyFloat where
  | nan
  | inf
  | ninf
  | num (q : ℚ)
deriving DecidableEq

/-- Python exception kinds relevant to the script. -/
inductive PyErr where
  | attrError
  | typeError
deriving DecidableEq

/-- Python truthiness (`bool(x)`) for a `JValue`. -/
def JValue.truthy : JValue → Bool
  | .null => false
  | .jbool b => b
  | .num q => if q = 0 then false else true
  | .str s => if s = "" then false else true
  | .arr xs => match xs with | [] => false | _ => true
  | .obj kvs => match kvs with | [] => false | _ => true

/-- ASCII lower-casing of one character (Python `str.lower`, ASCII range). -/
def lowerChar (c : Char) : Char :=
  if 'A' ≤ c ∧ c ≤ 'Z' then Char.ofNat (c.toNat + 32) else c

/-- Python `str.lower` (ASCII; the script only compares ASCII identifiers). -/
def pyLower (s : String) : String := String.mk (s.toList.map lowerChar)

/-- Python whitespace test used by `str.strip`. -/
def isSpaceChar (c : Char) : Bool :=
  c = ' ' ∨ c = '\t' ∨ c = '\n' ∨ c = '\r' ∨ c = '\x0b' ∨ c = '\x0c'

/-- Python `str.strip()`. -/
def pyStrip (s : String) : String :=
  String.mk (((s.toList.dropWhile isSpaceChar).reverse.dropWhile isSpaceChar).reverse)

/-- Numeric value of a digit list (most significant first). -/
def natOfDigits (ds : List Char) : Nat := ds.foldl (fun a c => a * 10 + (c.toNat - 48)) 0

/-- Value of a parsed decimal literal: integer digits `ip`, fraction digits
`fp`, decimal exponent `e`bbbb. -/
def decimalValue (ip fp : List Char) (e : Int) : ℚ :=
  let m : Int := Int.ofNat (natOfDigits (ip ++ fp))
  let e' : Int := e - Int.ofNat fp.length
  if 0 ≤ e' then mkRat (m * Int.ofNat (10 ^ e'.toNat)) 1
  else mkRat m (10 ^ (-e').toNat)

/-- All-digit, non-empty string to an integer. -/
def digitsToInt (l : List Char) : Option Int :=
  match l with
  | [] => none
  | _ => if l.all Char.isDigit then some (Int.ofNat (natOfDigits l)) else none

/-- Optionally signed digit run (the exponent part of a float literal). -/
def parseSignedDigits : List Char → Option Int
  | '+' :: r => digitsToInt r
  | '-' :: r => (digitsToInt r).map (fun n => -n)
  | r => digitsToInt r

/-- The `e`/`E` suffix of a float literal; `none` on trailing garbage. -/
def parseExpPart : List Char → Option Int
  | [] => some 0
  | 'e' :: r => parseSignedDigits r
  | 'E' :: r => parseSignedDigits r
  | _ => none

/-- An unsigned decimal float literal: `digits [. digits] [(e|E) [sign] digits]`. -/
def parseDec (l : List Char) : Option PyFloat :=
  let p1 := l.span Char.isDigit
  let p2 := match p1.2 with
    | '.' :: r => r.span Char.isDigit
    | _ => ([], p1.2)
  match p1.1, p2.1 with
  | [], [] => none
  | _, _ =>
    match parseExpPart p2.2 with
    | some e => some (.num (decimalValue p1.1 p2.1 e))
    | none => none

/-- Negation of a Python float. -/
def pfNeg : PyFloat → PyFloat
  | .nan => .nan
  | .inf => .ninf
  | .ninf => .inf
  | .num q => .num (-q)

/-- Body of `float(str)` after sign stripping (input already lower-cased). -/
def strToFloatBody (l : List Char) : Option PyFloat :=
  if l = "inf".toList ∨ l = "infinity".toList then some .inf
  else if l = "nan".toList then some .nan
  else parseDec l

/-- Python `float(s)` on a string: strip, optional sign, named specials or a
decimal literal.  (Underscored literals such as "1_0" are not modelled.) -/
def strToFloat (s : String) : Option PyFloat :=
  match (pyLower (pyStrip s)).toList with
  | '+' :: r => strToFloatBody r
  | '-' :: r => (strToFloatBody r).map pfNeg
  | r => strToFloatBody r

/-- Python `float(x)` on a decoded JSON value; `none` models a raised
`TypeError`/`ValueError`. -/
def pyFloat : JValue → Option PyFloat
  | .jbool b => some (.num (if b then 1 else 0))
  | .num q => some (.num q)
  | .str s => strToFloat s
  | _ => none

/-- `safe_float(x, None)` from the script: `None`/`""` short-circuit to the
default, any parse failure is swallowed to the default. -/
def safe_float : JValue → Option PyFloat
  | .null => none
  | .str s => if s = "" then none else strToFloat s
  | .jbool b => some (.num (if b then 1 else 0))
  | .num q => some (.num q)
  | _ => none

/-- Python `x == 0` on a float. -/
def pfIsZero : PyFloat → Bool
  | .num q => if q = 0 then true else false
  | _ => false

/-- Total order used to model Python float comparison on the sort keys.
On non-NaN values this is exactly Python's `<=`; NaN is placed below
everything to make the order total (the script's sort keys are never NaN:
`is_valid_score` filters NaN out before any comparison happens). -/
def pfLe : PyFloat → PyFloat → Bool
  | .nan, _ => true
  | _, .nan => false
  | .ninf, _ => true
  | _, .ninf => false
  | .num a, .num b => decide (a ≤ b)
  | .num _, .inf => true
  | .inf, .inf => true
  | .inf, .num _ => false

/-- Code-point comparison of character lists (Python `str` comparison). -/
def charListLe : List Char → List Char → Bool
  | [], _ => true
  | _ :: _, [] => false
  | a :: as, b :: bs => if a < b then true else if b < a then false else charListLe as bs

/-- Python `s <= t` on strings. -/
def strLe (s t : String) : Bool := charListLe s.toList t.toList

/-- `p` occurs as a contiguous substring of `s` (Python `p in s`). -/
def subOccurs (p s : List Char) : Bool :=
  match s with
  | [] => p.isEmpty
  | _ :: cs => p.isPrefixOf s || subOccurs p cs

/-- Python `pat in t` on strings. -/
def strContainsSub (t pat : String) : Bool := subOccurs pat.toList t.toList

/-- Number of positions of `s` at which `p` starts (counts overlaps). -/
def occCount (p s : List Char) : Nat :=
  match s with
  | [] => 0
  | _ :: cs => (if p.isPrefixOf s then 1 else 0) + occCount p cs

/-- Integer-style rendering of a rational (exact for `str()` of Python ints,
which is the only numeric rendering the claims exercise; non-integral floats
would use Python's decimal float repr, abstracted here as `num/den`). -/
def pyStrNum (q : ℚ) : String :=
  if q.den = 1 then toString q.num else toString q.num ++ "/" ++ toString q.den

mutual
/-- Python `repr` of a decoded JSON value (best effort; scalars are exact). -/
def pyRepr : JValue → String
  | .null => "None"
  | .jbool b => if b then "True" else "False"
  | .num q => pyStrNum q
  | .str s => "'" ++ s ++ "'"
  | .arr xs => "[" ++ String.intercalate ", " (pyReprList xs) ++ "]"
  | .obj kvs => "\x7b" ++ String.intercalate ", " (pyReprKVs kvs) ++ "\x7d"
/-- `repr` of each element of a list. -/
def pyReprList : List JValue → List String
  | [] => []
  | x :: xs => pyRepr x :: pyReprList xs
/-- `repr` of each `key: value` entry of a dict. -/
def pyReprKVs : List (String × JValue) → List String
  | [] => []
  | (k, v) :: xs => ("'" ++ k ++ "': " ++ pyRepr v) :: pyReprKVs xs
end

/-- Python `str(x)`: identity on strings, `repr`-like elsewhere. -/
def pyStr : JValue → String
  | .null => "None"
  | .jbool b => if b then "True" else "False"
  | .num q => pyStrNum q
  | .str s => s
  | .arr xs => pyRepr (.arr xs)
  | .obj kvs => pyRepr (.obj kvs)

/-- One pass of Python `str.replace` with a single-character needle. -/
def replaceChar (t : Char) (r : List Char) : List Char → List Char
  | [] => []
  | c :: cs => (if c = t then r else [c]) ++ replaceChar t r cs

/-- The five replacement passes of `html.escape(s, quote=True)`, ampersand
first so the later entities are not re-escaped. -/
def fiveChain (l : List Char) : List Char :=
  replaceChar (Char.ofNat 39) "&#x27;".toList
    (replaceChar (Char.ofNat 34) "&quot;".toList
      (replaceChar '>' "&gt;".toList
        (replaceChar '<' "&lt;".toList
          (replaceChar '&' "&amp;".toList l))))

/-- `html.escape(s)` with `quote=True`: the five standard HTML special
characters, ampersand first. -/
def htmlEscape (s : String) : String := String.mk (fiveChain s.toList)

/-- What one character contributes to the escaped output. -/
def escChar (c : Char) : List Char :=
  if c = '&' then "&amp;".toList
  else if c = '<' then "&lt;".toList
  else if c = '>' then "&gt;".toList
  else if c = (Char.ofNat 34) then "&quot;".toList
  else if c = Char.ofNat 39 then "&#x27;".toList
  else [c]

/-- Character-wise escaping of a whole list. -/
def escChars : List Char → List Char
  | [] => []
  | c :: cs => escChar c ++ escChars cs

/-- The `esc` helper of `render_index_html`: empty for `None`, otherwise
`html.escape(str(s))`. -/
def esc : JValue → String
  | .null => ""
  | v => htmlEscape (pyStr v)

/-! ## The script's data model -/

/-- One record as built by `main`'s filter loop (the dict appended to
`models`); `aa_id`/`aa_overall` start out as `None` placeholders. -/
structure MRec where
  id : JValue
  name : JValue
  description : JValue
  pricing : JValue
  raw : List (String × JValue)
  zero_cost : Bool
  free_tag : Bool
  aa_id : JValue
  aa_overall : Option PyFloat

/-- `dict.get(k, d)` on a decoded dict. -/
def dictGet (kvs : List (String × JValue)) (k : String) (d : JValue) : JValue :=
  (kvs.lookup k).getD d

/-- `x.get(k, d)` on an arbitrary value: `AttributeError` unless a dict. -/
def objGetE (v : JValue) (k : String) (d : JValue) : Except PyErr JValue :=
  match v with
  | .obj kvs => .ok (dictGet kvs k d)
  | _ => .error .attrError

/-- `to_dict(obj)`: identity on dicts; any other decoded JSON value has no
`model_dump`/`dict`/`__dict__`, giving `{}`. -/
def to_dict : JValue → List (String × JValue)
  | .obj kvs => kvs
  | _ => []

/-- `load_api_key()`: environment variable if truthy (then stripped), else
the key file's stripped content, else the fatal `RuntimeError`. -/
def load_api_key (env_api_key : Option String) (key_file : Option String) :
    Except Unit String :=
  match env_api_key with
  | some k =>
    if k = "" then
      match key_file with
      | some c => .ok (pyStrip c)
      | none => .error ()
    else .ok (pyStrip k)
  | none =>
    match key_file with
    | some c => .ok (pyStrip c)
    | none => .error ()

/-- Dict-comprehension insert: a repeated key keeps its position and takes
the latest value. -/
def mapInsert (d : List (String × String)) (k v : String) : List (String × String) :=
  if (d.lookup k).isSome then d.map (fun p => if p.1 = k then (p.1, v) else p)
  else d ++ [(k, v)]

/-- `load_aa_map()` on the mapping file's state (`none` = file absent,
`some (.error _)` = unreadable/malformed JSON).  Returns the mapping and
whether the parse-failure warning was logged. -/
def load_aa_map (map_file : Option (Except Unit JValue)) :
    List (String × String) × Bool :=
  match map_file with
  | none => ([], false)
  | some (.error _) => ([], true)
  | some (.ok (.obj kvs)) =>
      (kvs.foldl (fun d p =>
        match p.2 with
        | .str v => mapInsert d (pyLower p.1) v
        | _ => d) [], false)
  | some (.ok _) => ([], false)

/-- The candidate identifier list built identically at the start of
`find_aa_id_for_model` and `find_aa_data_for_model`: truthy `id`, `name`,
and `raw["display_name"]`, passed through `str(...)`. -/
def candidatesOf (m : MRec) : List String :=
  (if m.id.truthy then [pyStr m.id] else []) ++
  (if m.name.truthy then [pyStr m.name] else []) ++
  (let dn := dictGet m.raw "display_name" .null
   if dn.truthy then [pyStr dn] else [])

/-- `find_aa_id_for_model`: mapping-file lookup by lower-cased candidate,
else the first candidate as an original-case guess. -/
def find_aa_id_for_model (m : MRec) (aa_map : List (String × String)) :
    Option String :=
  let candidates := candidatesOf m
  match candidates.findSome? (fun orig => aa_map.lookup (pyLower orig)) with
  | some v => some v
  | none => candidates.head?

/-- Benign `.get` on an index entry (the index only ever stores dicts). -/
def indexGet (d : JValue) (k : String) : JValue :=
  match d with
  | .obj kvs => dictGet kvs k .null
  | _ => .null

/-- Adds `key -> m` to the index when `key` is truthy and its lower-casing
is not already present (`if lk not in index`). -/
def addIndexKey (index : List (String × JValue)) (m key : JValue) :
    List (String × JValue) :=
  if key.truthy then
    let lk := pyLower (pyStr key)
    if (index.lookup lk).isSome then index else index ++ [(lk, m)]
  else index

/-- The index-building loop of `fetch_all_aa_models`: each item must be a
dict (`m.get` raises `AttributeError` otherwise), indexed by id/slug/name. -/
def buildIndex : List JValue → List (String × JValue) →
    Except PyErr (List (String × JValue))
  | [], index => .ok index
  | m :: rest, index =>
    match m with
    | .obj kvs =>
      buildIndex rest
        (addIndexKey
          (addIndexKey
            (addIndexKey index m (dictGet kvs "id" .null))
            m (dictGet kvs "slug" .null))
          m (dictGet kvs "name" .null))
    | _ => .error .attrError

/-- The AA models endpoint's observable response: HTTP status and the JSON
parse of the body (a parse failure raises `JSONDecodeError`, which is a
`RequestException` and hence caught). -/
structure AAResp where
  status : Nat
  body : Except Unit JValue

/-- `fetch_all_aa_models(api_key)` as a function of the network response.
`RequestException`s (including body-parse failures) and non-200 statuses are
swallowed to `{}`; an unexpected payload shape raises out of the function. -/
def fetch_all_aa_models (api_key : String) (resp : Except Unit AAResp) :
    Except PyErr (List (String × JValue)) :=
  if api_key = "" then .ok []
  else
    match resp with
    | .error _ => .ok []
    | .ok r =>
      if r.status = 200 then
        match r.body with
        | .error _ => .ok []
        | .ok payload =>
          match payload with
          | .obj kvs =>
            let dv := dictGet kvs "data" .null
            let items := if dv.truthy then dv else .arr []
            match items with
            | .arr ms => buildIndex ms []
            | .str _ => .error .attrError
            | .obj _ => .error .attrError
            | _ => .error .typeError
          | _ => .error .attrError
      else .ok []

/-- The preferred score keys, in the order the script tries them. -/
def preferredKeys : List String :=
  ["artificial_analysis_intelligence_index", "artificial_analysis_overall", "overall"]

/-- The preferred-key loop of `extract_overall_from_evaluations`: exact
(case-sensitive) key membership, `float(...)` failures passed over. -/
def prefScan : List String → List (String × JValue) → Option PyFloat
  | [], _ => none
  | k :: ks, kvs =>
    match kvs.lookup k with
    | some v =>
      match pyFloat v with
      | some f => some f
      | none => prefScan ks kvs
    | none => prefScan ks kvs

/-- The fallback loop of `extract_overall_from_evaluations`: first value
that converts to a non-NaN float. -/
def fallbackScan : List (String × JValue) → Option PyFloat
  | [] => none
  | (_, v) :: rest =>
    match pyFloat v with
    | some f => if f = PyFloat.nan then fallbackScan rest else some f
    | none => fallbackScan rest

/-- `extract_overall_from_evaluations(evals)`. -/
def extract_overall_from_evaluations (evals : JValue) : Option PyFloat :=
  match evals with
  | .obj kvs =>
    match prefScan preferredKeys kvs with
    | some f => some f
    | none => fallbackScan kvs
  | _ => none

/-- The heuristic name/slug comparison in `find_aa_data_for_model`'s last
loop (exceptions inside the loop body are swallowed by `continue`). -/
def indexEntryMatch (lo : String) (am : JValue) : Option JValue :=
  match am with
  | .obj kvs =>
    let nm := pyLower (pyStr (dictGet kvs "name" (.str "")))
    let sl := pyLower (pyStr (dictGet kvs "slug" (.str "")))
    if lo = nm ∨ lo = sl then some am
    else if strContainsSub nm lo || strContainsSub sl lo then some am
    else none
  | _ => none

/-- `find_aa_data_for_model`: mapped-id lookup, then direct lookup, then the
substring heuristic over the index's values. -/
def find_aa_data_for_model (m : MRec) (aa_map : List (String × String))
    (aa_index : List (String × JValue)) : Option JValue :=
  let candidates := candidatesOf m
  match candidates.findSome? (fun orig =>
      match aa_map.lookup (pyLower orig) with
      | some mapped => if mapped = "" then none else aa_index.lookup (pyLower mapped)
      | none => none) with
  | some d => some d
  | none =>
  match candidates.findSome? (fun orig => aa_index.lookup (pyLower orig)) with
  | some d => some d
  | none =>
  candidates.findSome? (fun orig =>
    (aa_index.map Prod.snd).findSome? (indexEntryMatch (pyLower orig)))

/-! ## The filter loop of `main` -/

/-- `data.get("pricing", {}) or {}`. -/
def pricingOf (data : List (String × JValue)) : JValue :=
  let p := dictGet data "pricing" (.obj [])
  if p.truthy then p else .obj []

/-- The `is_zero_cost` computation: both pricing fields present, parsed, and
equal to zero; `pricing.get` raises on a truthy non-dict `pricing`. -/
def zeroCostOf (pricing : JValue) : Except PyErr Bool :=
  match objGetE pricing "prompt" .null with
  | .error e => .error e
  | .ok pv =>
    match objGetE pricing "completion" .null with
    | .error e => .error e
    | .ok cv =>
      .ok (match safe_float pv, safe_float cv with
           | some a, some b => pfIsZero a && pfIsZero b
           | _, _ => false)

/-- The lower-cased truthy `id`/`name`/`display_name` fields. -/
def textFieldsOf (data : List (String × JValue)) : List String :=
  ["id", "name", "display_name"].foldr (fun k acc =>
    let v := dictGet data k .null
    if v.truthy then pyLower (pyStr v) :: acc else acc) []

/-- The `has_free_tag` computation: any text field contains `":free"`. -/
def freeTagOf (data : List (String × JValue)) : Bool :=
  (textFieldsOf data).any (fun t => strContainsSub t ":free")

/-- One iteration of `main`'s filter loop: `none` when the item is dropped,
`some` with the freshly-built record when it is kept. -/
def processItem (item : JValue) : Except PyErr (Option MRec) :=
  let data := to_dict item
  let pricing := pricingOf data
  match zeroCostOf pricing with
  | .error e => .error e
  | .ok zc =>
    let ft := freeTagOf data
    if zc || ft then
      let nm := dictGet data "name" .null
      .ok (some
        { id := dictGet data "id" .null
          name := if nm.truthy then nm else dictGet data "display_name" .null
          description := dictGet data "description" .null
          pricing := pricing
          raw := data
          zero_cost := zc
          free_tag := ft
          aa_id := .null
          aa_overall := none })
    else .ok none

/-- The whole filter loop over the listing. -/
def buildModels : List JValue → Except PyErr (List MRec)
  | [] => .ok []
  | item :: rest =>
    match processItem item with
    | .error e => .error e
    | .ok none => buildModels rest
    | .ok (some m) =>
      match buildModels rest with
      | .error e => .error e
      | .ok ms => .ok (m :: ms)

/-- Python `a or b` on decoded values. -/
def jValueOr (a b : JValue) : JValue := if a.truthy then a else b

/-- The per-record enrichment step of `main`: index match first (only when
the index is non-empty), else the mapping/guess fallback. -/
def enrichModel (aa_map : List (String × String))
    (aa_index : List (String × JValue)) (m : MRec) : MRec :=
  let aa_data := match aa_index with
    | [] => none
    | _ => find_aa_data_for_model m aa_map aa_index
  match aa_data with
  | some d =>
    { m with
      aa_id := jValueOr (indexGet d "id") (indexGet d "slug")
      aa_overall := extract_overall_from_evaluations
        (jValueOr (indexGet d "evaluations") (.obj [])) }
  | none =>
    match find_aa_id_for_model m aa_map with
    | some g => if g = "" then m else { m with aa_id := .str g }
    | none => m

/-! ## Ranking -/

/-- `is_valid_score`: a score is present, float-convertible (it is stored as
a float or `None`, so conversion only fails on `None`) and not NaN. -/
def is_valid_score (m : MRec) : Bool :=
  match m.aa_overall with
  | none => false
  | some f => if f = PyFloat.nan then false else true

/-- `(x.get("name") or "").lower()`: `AttributeError` on a truthy non-string
name. -/
def lowerOrEmpty (v : JValue) : Except PyErr String :=
  if v.truthy then
    match v with
    | .str s => .ok (pyLower s)
    | _ => .error .attrError
  else .ok ""

/-- The scored-group sort key `(-float(x["aa_overall"]), lowered name)`. -/
def numKey (m : MRec) : Except PyErr (PyFloat × String) :=
  match m.aa_overall with
  | none => .error .typeError
  | some f =>
    match lowerOrEmpty m.name with
    | .error e => .error e
    | .ok nm => .ok (pfNeg f, nm)

/-- The unscored-group sort key (lowered name). -/
def nonNumKey (m : MRec) : Except PyErr String := lowerOrEmpty m.name

/-- Python tuple comparison on the scored keys. -/
def keyLeF (a b : PyFloat × String) : Bool :=
  if pfLe a.1 b.1 then (if pfLe b.1 a.1 then strLe a.2 b.2 else true) else false

/-- Ordering of decorated records by their key. -/
def fstRel {κ : Type} (le : κ → κ → Bool) (a b : κ × MRec) : Prop :=
  le a.1 b.1 = true

instance {κ : Type} (le : κ → κ → Bool) : DecidableRel (fstRel le) :=
  fun a b => decEq (le a.1 b.1) true

/-- Left-to-right effectful map over `Except`: the first raise propagates
(Python evaluates the sort keys, and builds the row list, in list order). -/
def seqMap {α β : Type} (f : α → Except PyErr β) : List α → Except PyErr (List β)
  | [] => .ok []
  | a :: rest =>
    match f a with
    | .error e => .error e
    | .ok b =>
      match seqMap f rest with
      | .error e => .error e
      | .ok bs => .ok (b :: bs)

/-- Python `sorted(l, key=key)`: all keys are computed first (any raise
propagates), then a stable sort orders the decorated list.  Mathlib's
`insertionSort` places a newly considered earlier element before strictly
greater elements and after equal ones, which is exactly the stable order
Python's sort produces for a total preorder. -/
def sortByKey {κ : Type} (key : MRec → Except PyErr κ) (le : κ → κ → Bool)
    (l : List MRec) : Except PyErr (List MRec) :=
  match seqMap key l with
  | .error e => .error e
  | .ok ks => .ok ((List.insertionSort (fstRel le) (ks.zip l)).map Prod.snd)

/-! ## Rendering -/

/-- Rounds `n / d` (with `d > 0`) to the nearest integer, ties to even —
the rounding of Python's fixed-point float formatting. -/
def roundHalfEvenFrac (n d : Nat) : Nat :=
  let w := n / d
  let r := n % d
  if 2 * r < d then w
  else if 2 * r > d then w + 1
  else if w % 2 = 0 then w else w + 1

/-- Renders a whole number of hundredths as a two-decimal string. -/
def formatCents (c : Nat) : String :=
  toString (c / 100) ++ "." ++ (if c % 100 < 10 then "0" else "") ++ toString (c % 100)

/-- Python `f"{x:.2f}"` on the model's score values. -/
def formatScore : PyFloat → String
  | .inf => "inf"
  | .ninf => "-inf"
  | .nan => "nan"
  | .num q =>
    (if q < 0 then "-" else "") ++
      formatCents (roundHalfEvenFrac (q.num.natAbs * 100) q.den)

/-- The `score_val` computation of the renderer: `None` for an absent or
NaN score (conversion of a stored float never fails). -/
def scoreValOf : Option PyFloat → Option PyFloat
  | none => none
  | some f => if f = PyFloat.nan then none else some f

/-- The renderer's `score_display`: `"-"` placeholder or two decimals. -/
def score_displayOf (score : Option PyFloat) : String :=
  match scoreValOf score with
  | none => "-"
  | some f => formatScore f

/-- `m.get("name") or m.get("id") or "unknown"`. -/
def nameDispOf (m : MRec) : JValue :=
  if m.name.truthy then m.name else if m.id.truthy then m.id else .str "unknown"

/-- Python `sep.join(parts)`. -/
def joinSep (sep : String) : List String → String
  | [] => ""
  | [a] => a
  | a :: b :: rest => a ++ sep ++ joinSep sep (b :: rest)

/-- The badge markup joined with a space. -/
def badgeHtmlOf (m : MRec) : String :=
  joinSep " "
    ((if m.zero_cost then ["<span class=\"badge zero\">zero-cost</span>"] else []) ++
     (if m.free_tag then ["<span class=\"badge free\">:free</span>"] else []))

/-- The `aa_info` line: mapped id or the `(not mapped)` placeholder. -/
def aaInfoOf (m : MRec) : String :=
  let sd := score_displayOf m.aa_overall
  if m.aa_id.truthy then
    "<div class=\"meta\">AA id: " ++ esc m.aa_id ++ " — score: " ++
      htmlEscape sd ++ "</div>"
  else
    "<div class=\"meta\">AA id: (not mapped) — score: " ++ htmlEscape sd ++ "</div>"

/-- One `<li>` row of the listing, exactly as the f-string lays it out. -/
def rowHtml (m : MRec) : Except PyErr String :=
  let nameH := esc (nameDispOf m)
  let idv := esc (if m.id.truthy then m.id else .str "")
  let desc := esc (if m.description.truthy then m.description else .str "")
  let pricing := if m.pricing.truthy then m.pricing else .obj []
  match objGetE pricing "prompt" (.str "-") with
  | .error e => .error e
  | .ok pv =>
    match objGetE pricing "completion" (.str "-") with
    | .error e => .error e
    | .ok cv =>
      .ok ("\n        <li class=\"model\">\n          <h3>" ++ nameH ++
        "</h3>\n          <div class=\"meta\">" ++ idv ++ " " ++ badgeHtmlOf m ++
        "</div>\n          " ++
        (if desc = "" then "" else "<p>" ++ desc ++ "</p>") ++
        "\n          <div class=\"meta\">pricing: prompt=" ++ esc pv ++
        " completion=" ++ esc cv ++ "</div>\n          " ++ aaInfoOf m ++
        "\n        </li>\n        ")

/-- The fixed document text before the generated-at interpolation. -/
def pageTop : String :=
  "<!doctype html>\n<html lang=\"en\">\n  <head>\n    <meta charset=\"utf-8\" />\n    <meta name=\"viewport\" content=\"width=device-width,initial-scale=1\" />\n    <title>OpenRouter Zero-Cost Models</title>\n    <link rel=\"stylesheet\" href=\"styles.css\" />\n    <style>\n      .badge\x7bdisplay:inline-block;padding:2px 6px;border-radius:6px;font-size:0.8rem;margin-left:8px\x7d\n      .badge.zero\x7bbackground:#fde68a;color:#42321b\x7d\n      .badge.free\x7bbackground:#bae6fd;color:#052028\x7d\n      .models-list\x7blist-style:none;padding:0\x7d\n      .model\x7bmargin:1rem 0;padding:0.8rem;border-bottom:1px solid #eee\x7d\n      .meta\x7bcolor:#666;font-size:0.9rem;margin-top:0.4rem\x7d\n    </style>\n  </head>\n  <body>\n    <main>\n      <h1>OpenRouter — Zero-Cost Models (sorted by artificialanalysis.ai overall score)</h1>\n      <p class=\"lead\">A live listing of zero-cost models surfaced from OpenRouter, enhanced with artificialanalysis.ai scores when available.</p>\n      <div class=\"muted\">Generated: "

/-- The fixed document text between the timestamp and the model list. -/
def pageMid : String := "</div>\n      <ul class=\"models-list\">"

/-- The fixed document text after the model list. -/
def pageTail : String :=
  "</ul>\n      <footer><small>Data generated by <code>scripts/fetch_models.py</code>. Scores provided by artificialanalysis.ai when ARTIFICIALANALYSIS_API_KEY is set.</small></footer>\n    </main>\n  </body>\n</html>"

/-- `render_index_html(out)` on the dict `main` builds. -/
def render_index_html (generated_at : String) (models : List MRec) :
    Except PyErr String :=
  match seqMap rowHtml models with
  | .error e => .error e
  | .ok rows =>
    let joined := joinSep "\n" rows
    let models_html :=
      if joined = "" then "<li class=\"muted\">No models found.</li>" else joined
    .ok (pageTop ++ esc (.str generated_at) ++ pageMid ++ models_html ++ pageTail)

/-! ## The `main` entry point -/

/-- Timestamp components of `datetime.now(UTC)`. -/
structure UtcTime where
  year : Nat
  month : Nat
  day : Nat
  hour : Nat
  minute : Nat
  second : Nat
  microsecond : Nat

/-- Two-digit zero-padded field. -/
def pad2 (n : Nat) : String := if n < 10 then "0" ++ toString n else toString n

/-- Four-digit zero-padded year. -/
def pad4 (n : Nat) : String :=
  if n < 10 then "000" ++ toString n
  else if n < 100 then "00" ++ toString n
  else if n < 1000 then "0" ++ toString n
  else toString n

/-- Six-digit zero-padded microseconds. -/
def pad6 (n : Nat) : String :=
  if n < 10 then "00000" ++ toString n
  else if n < 100 then "0000" ++ toString n
  else if n < 1000 then "000" ++ toString n
  else if n < 10000 then "00" ++ toString n
  else if n < 100000 then "0" ++ toString n
  else toString n

/-- The `YYYY-MM-DD` date part of `isoformat()`. -/
def isoDate (t : UtcTime) : String :=
  pad4 t.year ++ "-" ++ pad2 t.month ++ "-" ++ pad2 t.day

/-- The `HH:MM:SS[.ffffff]` time part of `isoformat()`. -/
def isoTimeOfDay (t : UtcTime) : String :=
  pad2 t.hour ++ ":" ++ pad2 t.minute ++ ":" ++ pad2 t.second ++
  (if t.microsecond = 0 then "" else "." ++ pad6 t.microsecond)

/-- `datetime.now(UTC).isoformat().replace("+00:00", "Z")`. -/
def isoformatZ (t : UtcTime) : String := isoDate t ++ "T" ++ isoTimeOfDay t ++ "Z"

/-- How a run of `main` terminates without writing output: the two explicit
`sys.exit(1)` calls, or an uncaught exception (also a non-zero exit). -/
inductive MainErr where
  | fatalNoKey
  | fatalListing
  | uncaught (e : PyErr)
deriving DecidableEq

/-- A completed run: the `out` dict plus the HTML written to disk. -/
structure MainOutput where
  generated_at : String
  count : Nat
  models : List MRec
  html : String

/-- The run's environment and the responses of the external services. -/
structure WorldInput where
  env_api_key : Option String
  key_file : Option String
  listing : Except Unit (List JValue)
  map_file : Option (Except Unit JValue)
  env_aa_key : Option String
  aa_resp : Except Unit AAResp
  now : UtcTime

/-- The sort section of `main` (lines around `is_valid_score`): partition by
score validity, sort the scored group with the `try`/`except` fallback to its
original order, sort the unscored group unprotected, concatenate. -/
def finalSortOf (models : List MRec) : Except PyErr (List MRec) :=
  let numeric := models.filter (fun m => is_valid_score m)
  let non_numeric := models.filter (fun m => !(is_valid_score m))
  let numeric_sorted :=
    match sortByKey numKey keyLeF numeric with
    | .ok l => l
    | .error _ => numeric
  match sortByKey nonNumKey strLe non_numeric with
  | .error e => .error e
  | .ok non_numeric_sorted => .ok (numeric_sorted ++ non_numeric_sorted)

/-- `main` up to and including the sort (everything before the `out` dict is
assembled); `now` plays no part here. -/
def pipelineModels (w : WorldInput) : Except MainErr (List MRec) :=
  match load_api_key w.env_api_key w.key_file with
  | .error _ => .error .fatalNoKey
  | .ok _ =>
    match w.listing with
    | .error _ => .error .fatalListing
    | .ok items =>
      match buildModels items with
      | .error e => .error (.uncaught e)
      | .ok models0 =>
        let aa_map := (load_aa_map w.map_file).1
        let aa_api_key := w.env_aa_key.getD ""
        match (if aa_api_key = "" then .ok []
               else fetch_all_aa_models aa_api_key w.aa_resp) with
        | .error e => .error (.uncaught e)
        | .ok aa_index =>
          match finalSortOf (models0.map (enrichModel aa_map aa_index)) with
          | .error e => .error (.uncaught e)
          | .ok final => .ok final

/-- The whole run of the script's `main`. -/
def mainRun (w : WorldInput) : Except MainErr MainOutput :=
  match pipelineModels w with
  | .error e => .error e
  | .ok final =>
    let gen := isoformatZ w.now
    match render_index_html gen final with
    | .error e => .error (.uncaught e)
    | .ok html =>
      .ok { generated_at := gen, count := final.length, models := final, html := html }

/-- The run's final record list (the `models` entry of the `out` dict). -/
def mainModels (w : WorldInput) : Except MainErr (List MRec) :=
  match mainRun w with
  | .error e => .error e
  | .ok out => .ok out.models


/-! ## Statement apparatus and concrete example inputs for the claims -/

/-- The ordering the scored group is claimed to have: whenever both sort keys
exist, adjacent records are in `keyLeF` order (score descending, lower-cased
name ascending as tie-break). -/
def scoredOrder (a b : MRec) : Prop :=
  ∀ ka kb, numKey a = Except.ok ka → numKey b = Except.ok kb → keyLeF ka kb = true

/-- The ordering the unscored group is claimed to have: lower-cased name
ascending. -/
def unscoredOrder (a b : MRec) : Prop :=
  ∀ ka kb, nonNumKey a = Except.ok ka → nonNumKey b = Except.ok kb → strLe ka kb = true

/-- A bulk-index response that is not a success: network error or non-200. -/
def aaRespFailed : Except Unit AAResp → Bool
  | .error _ => true
  | .ok r => if r.status = 200 then false else true

/-- A fixed run timestamp used by the concrete examples. -/
def t0 : UtcTime := ⟨2026, 10, 12, 0, 0, 0, 0⟩

/-- C1's example item: prompt price `0`, completion price `"not-a-number"`,
id carrying `:free`. -/
def exItemC1 : JValue :=
  .obj [("id", .str "m:free"),
        ("pricing", .obj [("prompt", .num 0), ("completion", .str "not-a-number")])]

/-- The record the filter loop builds from `exItemC1`. -/
def recC1 : MRec :=
  { id := .str "m:free", name := .null, description := .null,
    pricing := .obj [("prompt", .num 0), ("completion", .str "not-a-number")],
    raw := [("id", .str "m:free"),
            ("pricing", .obj [("prompt", .num 0), ("completion", .str "not-a-number")])],
    zero_cost := false, free_tag := true, aa_id := .null, aa_overall := none }

/-- C2's record A: score 90, name "beta". -/
def recScoreA : MRec :=
  { id := .str "a", name := .str "beta", description := .null, pricing := .obj [],
    raw := [], zero_cost := true, free_tag := false, aa_id := .null,
    aa_overall := some (.num 90) }

/-- C2's record B: score 90, name "alpha" (alphabetically before A). -/
def recScoreB : MRec :=
  { recScoreA with id := .str "b", name := .str "alpha" }

/-- C2's record C: no score, name "gamma". -/
def recNoScore : MRec :=
  { recScoreA with id := .str "c", name := .str "gamma", aa_overall := none }

/-- C3's counterexample evaluations: a numeric entry first, then an entry
whose name matches "overall" only case-insensitively, holding another value. -/
def cexEvalsC3 : JValue := .obj [("quality_index", .num 10), ("Overall", .num 50)]

/-- C4's failing item: the `:free` id keeps it, the numeric name later makes
the unscored sort key raise. -/
def cexItemC4 : JValue := .obj [("id", .str "m:free"), ("name", .num 5)]

/-- C4's failing world: primary key present, listing succeeds. -/
def cexWorldC4 : WorldInput :=
  { env_api_key := some "k", key_file := none, listing := .ok [cexItemC4],
    map_file := none, env_aa_key := none, aa_resp := .error (), now := t0 }

/-- The empty-listing document used as the C5 witness. -/
def docC5 : String :=
  pageTop ++ htmlEscape (isoformatZ t0) ++ pageMid ++
    "<li class=\"muted\">No models found.</li>" ++ pageTail

/-- C6's witness record: name contains a `<script>` tag. -/
def recC6 : MRec :=
  { id := .str "x:free", name := .str "a<script>b", description := .null,
    pricing := .obj [],
    raw := [("id", .str "x:free"), ("name", .str "a<script>b")],
    zero_cost := false, free_tag := true, aa_id := .str "x:free", aa_overall := none }

/-- C6's witness world. -/
def wC6 : WorldInput :=
  { env_api_key := some "k", key_file := none,
    listing := .ok [.obj [("id", .str "x:free"), ("name", .str "a<script>b")]],
    map_file := none, env_aa_key := none, aa_resp := .error (), now := t0 }

/-- The row rendered for `recC6`. -/
def rowC6 : String :=
  match rowHtml recC6 with
  | .ok r => r
  | .error _ => ""

/-- The completed C6 witness run. -/
def outC6 : MainOutput :=
  { generated_at := isoformatZ t0, count := 1, models := [recC6],
    html := pageTop ++ htmlEscape (isoformatZ t0) ++ pageMid ++ rowC6 ++ pageTail }

/-- C7's witness world: the bulk index fetch returns HTTP 500. -/
def wC7 : WorldInput :=
  { env_api_key := some "k", key_file := none,
    listing := .ok [.obj [("id", .str "x:free")]],
    map_file := none, env_aa_key := some "s",
    aa_resp := .ok { status := 500, body := .ok .null }, now := t0 }

/-- C8's world: a malformed mapping file. -/
def cexWorldC8 : WorldInput :=
  { env_api_key := some "k", key_file := none,
    listing := .ok [.obj [("id", .str "x:free")]],
    map_file := some (.error ()), env_aa_key := none, aa_resp := .error (), now := t0 }

/-- The record C8's run produces: the guess fallback still assigns an
external id. -/
def recC8 : MRec :=
  { id := .str "x:free", name := .null, description := .null, pricing := .obj [],
    raw := [("id", .str "x:free")], zero_cost := false, free_tag := true,
    aa_id := .str "x:free", aa_overall := none }

/-- C9's witness world (empty listing). -/
def wC9 : WorldInput :=
  { env_api_key := some "k", key_file := none, listing := .ok [],
    map_file := none, env_aa_key := none, aa_resp := .error (), now := t0 }

/-- A second timestamp for the C9 witness. -/
def t1C9 : UtcTime := ⟨2027, 1, 2, 3, 4, 5, 6⟩

/-- The C9 witness output for timestamp `t`. -/
def outC9 (t : UtcTime) : MainOutput :=
  { generated_at := isoformatZ t, count := 0, models := [],
    html := pageTop ++ htmlEscape (isoformatZ t) ++ pageMid ++
      "<li class=\"muted\">No models found.</li>" ++ pageTail }

/-- C10's scoring-index response: both listed models have overall scores. -/
def aaIndexRespC10 : AAResp :=
  { status := 200
    body := .ok (.obj [("data", .arr [
        .obj [("id", .str "aa-a"), ("name", .str "a:free"),
              ("evaluations", .obj [("overall", .num 1)])],
        .obj [("id", .str "aa-b"), ("name", .str "b:free"),
              ("evaluations", .obj [("overall", .num 2)])]])]) }

/-- C10's counterexample world: two scored records, the second with a JSON
number as its name. -/
def wCex10 : WorldInput :=
  { env_api_key := some "k", key_file := none,
    listing := .ok [
      .obj [("id", .str "a:free"), ("name", .str "zzz")],
      .obj [("id", .str "b:free"), ("name", .num 5)]],
    map_file := none, env_aa_key := some "s",
    aa_resp := .ok aaIndexRespC10, now := t0 }

/-- The first record of the C10 run, enriched with score 1. -/
def recA10 : MRec :=
  { id := .str "a:free", name := .str "zzz", description := .null,
    pricing := .obj [],
    raw := [("id", .str "a:free"), ("name", .str "zzz")],
    zero_cost := false, free_tag := true, aa_id := .str "aa-a",
    aa_overall := some (.num 1) }

/-- The second record of the C10 run, enriched with score 2; its name is the
JSON number `5`. -/
def recB10 : MRec :=
  { id := .str "b:free", name := .num 5, description := .null,
    pricing := .obj [],
    raw := [("id", .str "b:free"), ("name", .num 5)],
    zero_cost := false, free_tag := true, aa_id := .str "aa-b",
    aa_overall := some (.num 2) }

/-! ## General lemmas about the embedding's building blocks -/

example : esc (.str "a<script>b") = "a&lt;script&gt;b" := rfl
example : safe_float (.str "not-a-number") = none := rfl
example : safe_float (.str "0") = some (.num 0) := rfl
example : safe_float (.str " -2.5e1 ") = some (.num (mkRat (-25) 1)) := rfl
example : safe_float (.str "nan") = some .nan := rfl
example : safe_float (.str "") = none := rfl
example : safe_float .null = none := rfl
example : strContainsSub "mistral-7b:free" ":free" = true := rfl
example : pyLower "Google: Gemini" = "google: gemini" := rfl
example : pyStrip "  k3y\n" = "k3y" := rfl


theorem seqMap_length {α β : Type} (f : α → Except PyErr β) (l : List α)
    (bs : List β) (h : seqMap f l = .ok bs) : bs.length = l.length := by
  induction l generalizing bs with
  | nil =>
    simp only [seqMap] at h
    cases h
    rfl
  | cons a rest ih =>
    simp only [seqMap] at h
    cases hfa : f a with
    | error e => rw [hfa] at h; cases h
    | ok b =>
      rw [hfa] at h
      cases hrest : seqMap f rest with
      | error e => rw [hrest] at h; cases h
      | ok bs' =>
        rw [hrest] at h
        cases h
        simp [ih bs' hrest]

theorem seqMap_zip_mem {α β : Type} (f : α → Except PyErr β) :
    ∀ (l : List α) (bs : List β), seqMap f l = .ok bs →
      ∀ p ∈ bs.zip l, f p.2 = .ok p.1 := by
  intro l
  induction l with
  | nil =>
    intro bs h p hp
    simp only [seqMap] at h
    cases h
    cases hp
  | cons a rest ih =>
    intro bs h p hp
    simp only [seqMap] at h
    cases hfa : f a with
    | error e => rw [hfa] at h; cases h
    | ok b =>
      rw [hfa] at h
      cases hrest : seqMap f rest with
      | error e => rw [hrest] at h; cases h
      | ok bs' =>
        rw [hrest] at h
        cases h
        simp only [List.zip_cons_cons] at hp
        cases hp with
        | head => exact hfa
        | tail _ hp => exact ih bs' hrest p hp

theorem seqMap_mem {α β : Type} (f : α → Except PyErr β) (a : α) :
    ∀ (l : List α) (bs : List β), seqMap f l = .ok bs → a ∈ l →
      ∃ b ∈ bs, f a = .ok b := by
  intro l
  induction l with
  | nil => intro bs h ha; cases ha
  | cons x rest ih =>
    intro bs h ha
    simp only [seqMap] at h
    cases hfx : f x with
    | error e => rw [hfx] at h; cases h
    | ok b =>
      rw [hfx] at h
      cases hrest : seqMap f rest with
      | error e => rw [hrest] at h; cases h
      | ok bs' =>
        rw [hrest] at h
        cases h
        cases ha with
        | head => exact ⟨b, List.mem_cons_self _ _, hfx⟩
        | tail _ ha =>
          rcases ih bs' hrest ha with ⟨b', hb', hfb'⟩
          exact ⟨b', List.mem_cons_of_mem _ hb', hfb'⟩

theorem seqMap_of_forall {α β : Type} (f : α → Except PyErr β) (l : List α)
    (h : ∀ a ∈ l, ∃ b, f a = .ok b) : ∃ bs, seqMap f l = .ok bs := by
  induction l with
  | nil => exact ⟨[], rfl⟩
  | cons a rest ih =>
    rcases h a (List.mem_cons_self _ _) with ⟨b, hb⟩
    rcases ih (fun x hx => h x (List.mem_cons_of_mem _ hx)) with ⟨bs, hbs⟩
    refine ⟨b :: bs, ?_⟩
    simp only [seqMap]
    rw [hb, hbs]

theorem str_toList_append (a b : String) : (a ++ b).toList = a.toList ++ b.toList := by
  cases a
  cases b
  rfl

/-! ### The sort orders are total preorders -/

theorem pfLe_total (a b : PyFloat) : pfLe a b = true ∨ pfLe b a = true := by
  cases a <;> cases b <;> simp [pfLe]
  all_goals exact le_total _ _

theorem pfLe_trans (a b c : PyFloat) (h1 : pfLe a b = true) (h2 : pfLe b c = true) :
    pfLe a c = true := by
  cases a <;> cases b <;> cases c <;> simp_all [pfLe]
  all_goals linarith

theorem charListLe_refl (s : List Char) : charListLe s s = true := by
  induction s with
  | nil => rfl
  | cons a as ih => simp [charListLe, ih]

theorem charListLe_total (s t : List Char) : charListLe s t = true ∨ charListLe t s = true := by
  induction s generalizing t with
  | nil => exact Or.inl rfl
  | cons a as ih =>
    cases t with
    | nil => exact Or.inr rfl
    | cons b bs =>
      by_cases hab : a < b
      · left; simp [charListLe, hab]
      · by_cases hba : b < a
        · right; simp [charListLe, hba]
        · rcases ih bs with h | h
          · left; simp [charListLe, hab, hba, h]
          · right; simp [charListLe, hab, hba, h]

theorem charListLe_trans (s t u : List Char) (h1 : charListLe s t = true)
    (h2 : charListLe t u = true) : charListLe s u = true := by
  induction s generalizing t u with
  | nil => rfl
  | cons a as ih =>
    cases t with
    | nil => simp [charListLe] at h1
    | cons b bs =>
      cases u with
      | nil => simp [charListLe] at h2
      | cons c cs =>
        simp only [charListLe] at h1 h2 ⊢
        by_cases hab : a < b
        · by_cases hbc : b < c
          · simp [lt_trans hab hbc]
          · by_cases hcb : c < b
            · simp [hbc, hcb] at h2
            · have : b = c := le_antisymm (not_lt.mp hcb) (not_lt.mp hbc)
              subst this
              simp [hab]
        · by_cases hba : b < a
          · simp [hab, hba] at h1
          · have hab' : a = b := le_antisymm (not_lt.mp hba) (not_lt.mp hab)
            subst hab'
            by_cases hac : a < c
            · simp [hac]
            · by_cases hca : c < a
              · simp [hac, hca] at h2
              · have : a = c := le_antisymm (not_lt.mp hca) (not_lt.mp hac)
                subst this
                simp only [lt_irrefl, if_false] at h1 h2 ⊢
                exact ih bs cs h1 h2

theorem strLe_total (s t : String) : strLe s t = true ∨ strLe t s = true :=
  charListLe_total s.toList t.toList

theorem strLe_trans (s t u : String) (h1 : strLe s t = true) (h2 : strLe t u = true) :
    strLe s u = true :=
  charListLe_trans s.toList t.toList u.toList h1 h2

theorem keyLeF_iff (a b : PyFloat × String) :
    keyLeF a b = true ↔
      (pfLe a.1 b.1 = true ∧ (pfLe b.1 a.1 = true → strLe a.2 b.2 = true)) := by
  unfold keyLeF
  split <;> rename_i h1
  · split <;> rename_i h2 <;> simp_all
  · simp_all

theorem keyLeF_total (a b : PyFloat × String) : keyLeF a b = true ∨ keyLeF b a = true := by
  rcases pfLe_total a.1 b.1 with h | h
  · by_cases h' : pfLe b.1 a.1 = true
    · rcases strLe_total a.2 b.2 with hs | hs
      · exact Or.inl ((keyLeF_iff a b).mpr ⟨h, fun _ => hs⟩)
      · exact Or.inr ((keyLeF_iff b a).mpr ⟨h', fun _ => hs⟩)
    · exact Or.inl ((keyLeF_iff a b).mpr ⟨h, fun hh => absurd hh h'⟩)
  · by_cases h' : pfLe a.1 b.1 = true
    · rcases strLe_total a.2 b.2 with hs | hs
      · exact Or.inl ((keyLeF_iff a b).mpr ⟨h', fun _ => hs⟩)
      · exact Or.inr ((keyLeF_iff b a).mpr ⟨h, fun _ => hs⟩)
    · exact Or.inr ((keyLeF_iff b a).mpr ⟨h, fun hh => absurd hh h'⟩)

theorem keyLeF_trans (a b c : PyFloat × String) (h1 : keyLeF a b = true)
    (h2 : keyLeF b c = true) : keyLeF a c = true := by
  rcases (keyLeF_iff a b).mp h1 with ⟨hab, hab'⟩
  rcases (keyLeF_iff b c).mp h2 with ⟨hbc, hbc'⟩
  refine (keyLeF_iff a c).mpr ⟨pfLe_trans _ _ _ hab hbc, fun hca => ?_⟩
  have hba : pfLe b.1 a.1 = true := pfLe_trans _ _ _ hbc hca
  have hcb : pfLe c.1 b.1 = true := pfLe_trans _ _ _ hca hab
  exact strLe_trans _ _ _ (hab' hba) (hbc' hcb)

/-! ### What a successful `sortByKey` produces -/

theorem sortByKey_ok_perm {κ : Type} (key : MRec → Except PyErr κ) (le : κ → κ → Bool)
    (l out : List MRec) (h : sortByKey key le l = .ok out) : out.Perm l := by
  unfold sortByKey at h
  cases hks : seqMap key l with
  | error e => rw [hks] at h; cases h
  | ok ks =>
    rw [hks] at h
    cases h
    have hlen := seqMap_length key l ks hks
    calc ((List.insertionSort (fstRel le) (ks.zip l)).map Prod.snd).Perm
          ((ks.zip l).map Prod.snd) := (List.perm_insertionSort _ _).map _
      _ = l := List.map_snd_zip ks l (le_of_eq hlen.symm)

theorem sortByKey_ok_mem {κ : Type} (key : MRec → Except PyErr κ) (le : κ → κ → Bool)
    (l out : List MRec) (h : sortByKey key le l = .ok out) (m : MRec) (hm : m ∈ out) :
    m ∈ l :=
  (sortByKey_ok_perm key le l out h).mem_iff.mp hm

theorem sortByKey_ok_pairwise {κ : Type} (key : MRec → Except PyErr κ) (le : κ → κ → Bool)
    (htot : ∀ a b, le a b = true ∨ le b a = true)
    (htr : ∀ a b c, le a b = true → le b c = true → le a c = true)
    (l out : List MRec) (h : sortByKey key le l = .ok out) :
    out.Pairwise (fun m1 m2 =>
      ∀ k1 k2, key m1 = .ok k1 → key m2 = .ok k2 → le k1 k2 = true) := by
  unfold sortByKey at h
  cases hks : seqMap key l with
  | error e => rw [hks] at h; cases h
  | ok ks =>
    rw [hks] at h
    cases h
    have hsorted : (List.insertionSort (fstRel le) (ks.zip l)).Pairwise (fstRel le) :=
      @List.sorted_insertionSort _ (fstRel le) _
        ⟨fun a b => htot a.1 b.1⟩ ⟨fun a b c => htr a.1 b.1 c.1⟩ (ks.zip l)
    have hmem : ∀ p ∈ List.insertionSort (fstRel le) (ks.zip l), key p.2 = .ok p.1 := by
      intro p hp
      exact seqMap_zip_mem key l ks hks p ((List.perm_insertionSort _ _).mem_iff.mp hp)
    rw [List.pairwise_map]
    refine hsorted.imp_of_mem ?_
    intro p q hp hq hrel k1 k2 hk1 hk2
    have e1 := hmem p hp
    have e2 := hmem q hq
    rw [hk1] at e1
    rw [hk2] at e2
    cases e1
    cases e2
    exact hrel

theorem sortByKey_ok_of_forall {κ : Type} (key : MRec → Except PyErr κ)
    (le : κ → κ → Bool) (l : List MRec) (h : ∀ m ∈ l, ∃ k, key m = .ok k) :
    ∃ out, sortByKey key le l = .ok out := by
  rcases seqMap_of_forall key l h with ⟨ks, hks⟩
  refine ⟨(List.insertionSort (fstRel le) (ks.zip l)).map Prod.snd, ?_⟩
  unfold sortByKey
  rw [hks]

/-! ### Facts about the filter loop, enrichment, and the assembled pipeline -/

theorem processItem_keeps_iff (item : JValue) (r : Option MRec)
    (h : processItem item = .ok r) :
    ∃ zc, zeroCostOf (pricingOf (to_dict item)) = .ok zc ∧
      r.isSome = (zc || freeTagOf (to_dict item)) := by
  simp only [processItem] at h
  split at h
  · cases h
  · rename_i zc hzc
    refine ⟨zc, hzc, ?_⟩
    split at h
    · rename_i hcond
      cases h
      exact hcond.symm
    · rename_i hcond
      cases h
      simp only [Bool.not_eq_true] at hcond
      exact hcond.symm

theorem processItem_some (item : JValue) (m : MRec)
    (h : processItem item = .ok (some m)) :
    m.aa_overall = none ∧ m.aa_id = JValue.null ∧ (m.zero_cost || m.free_tag) = true := by
  simp only [processItem] at h
  split at h
  · cases h
  · rename_i zc hzc
    split at h
    · rename_i hcond
      simp only [Except.ok.injEq, Option.some.injEq] at h
      subst h
      exact ⟨rfl, rfl, hcond⟩
    · simp at h

theorem buildModels_mem (m : MRec) :
    ∀ (items : List JValue) (ms : List MRec), buildModels items = .ok ms → m ∈ ms →
      ∃ item ∈ items, processItem item = .ok (some m) := by
  intro items
  induction items with
  | nil =>
    intro ms h hm
    simp only [buildModels] at h
    cases h
    cases hm
  | cons item rest ih =>
    intro ms h hm
    simp only [buildModels] at h
    cases hp : processItem item with
    | error e => rw [hp] at h; cases h
    | ok r =>
      rw [hp] at h
      cases r with
      | none =>
        rcases ih ms h hm with ⟨it, hit, hps⟩
        exact ⟨it, List.mem_cons_of_mem _ hit, hps⟩
      | some m0 =>
        cases hrest : buildModels rest with
        | error e => rw [hrest] at h; cases h
        | ok ms' =>
          rw [hrest] at h
          cases h
          cases hm with
          | head => exact ⟨item, List.mem_cons_self _ _, hp⟩
          | tail _ hm =>
            rcases ih ms' hrest hm with ⟨it, hit, hps⟩
            exact ⟨it, List.mem_cons_of_mem _ hit, hps⟩

theorem enrichModel_keeps (mp : List (String × String))
    (idx : List (String × JValue)) (m : MRec) :
    (enrichModel mp idx m).zero_cost = m.zero_cost ∧
    (enrichModel mp idx m).free_tag = m.free_tag ∧
    (enrichModel mp idx m).name = m.name := by
  simp only [enrichModel]
  cases hd : (match idx with
    | [] => (none : Option JValue)
    | _ => find_aa_data_for_model m mp idx) with
  | some d => simp
  | none =>
    cases find_aa_id_for_model m mp with
    | some g =>
      by_cases hg : g = "" <;> simp [hg]
    | none => simp

theorem enrichModel_nil (mp : List (String × String)) (m : MRec) :
    (enrichModel mp [] m).aa_overall = m.aa_overall ∧
    (enrichModel mp [] m).zero_cost = m.zero_cost ∧
    (enrichModel mp [] m).free_tag = m.free_tag := by
  simp only [enrichModel]
  cases find_aa_id_for_model m mp with
  | some g =>
    by_cases hg : g = "" <;> simp [hg]
  | none => simp

theorem finalSortOf_ok (ms out : List MRec) (h : finalSortOf ms = .ok out) :
    ∃ ns us,
      out = ns ++ us ∧
      ns.Perm (ms.filter (fun m => is_valid_score m)) ∧
      sortByKey nonNumKey strLe (ms.filter (fun m => !(is_valid_score m))) = .ok us ∧
      (sortByKey numKey keyLeF (ms.filter (fun m => is_valid_score m)) = .ok ns ∨
        ((∃ e, sortByKey numKey keyLeF (ms.filter (fun m => is_valid_score m)) = .error e) ∧
          ns = ms.filter (fun m => is_valid_score m))) := by
  simp only [finalSortOf] at h
  cases hs2 : sortByKey nonNumKey strLe (ms.filter (fun m => !(is_valid_score m))) with
  | error e => rw [hs2] at h; cases h
  | ok us =>
    rw [hs2] at h
    cases hs1 : sortByKey numKey keyLeF (ms.filter (fun m => is_valid_score m)) with
    | error e =>
      rw [hs1] at h
      cases h
      exact ⟨_, us, rfl, List.Perm.refl _, rfl, Or.inr ⟨⟨e, rfl⟩, rfl⟩⟩
    | ok ns =>
      rw [hs1] at h
      cases h
      exact ⟨ns, us, rfl, sortByKey_ok_perm _ _ _ _ hs1, rfl, Or.inl rfl⟩

theorem finalSortOf_ok_perm (ms out : List MRec) (h : finalSortOf ms = .ok out) :
    out.Perm ms := by
  rcases finalSortOf_ok ms out h with ⟨ns, us, rfl, hns, hus, _⟩
  exact (hns.append (sortByKey_ok_perm _ _ _ _ hus)).trans (List.filter_append_perm _ ms)

theorem pipelineModels_ok (w : WorldInput) (final : List MRec)
    (h : pipelineModels w = .ok final) :
    ∃ items models0 aa_index,
      w.listing = .ok items ∧
      buildModels items = .ok models0 ∧
      (if (w.env_aa_key.getD "") = "" then Except.ok []
       else fetch_all_aa_models (w.env_aa_key.getD "") w.aa_resp) = .ok aa_index ∧
      finalSortOf (models0.map (enrichModel (load_aa_map w.map_file).1 aa_index)) =
        .ok final := by
  simp only [pipelineModels] at h
  split at h
  · cases h
  · split at h
    · cases h
    · rename_i items hl
      split at h
      · cases h
      · rename_i models0 hb
        split at h
        · cases h
        · rename_i aa_index hf
          split at h
          · cases h
          · rename_i fin hs
            cases h
            exact ⟨items, models0, aa_index, hl, hb, hf, hs⟩

theorem mainRun_ok (w : WorldInput) (out : MainOutput) (h : mainRun w = .ok out) :
    pipelineModels w = .ok out.models ∧
    out.generated_at = isoformatZ w.now ∧
    out.count = out.models.length ∧
    render_index_html (isoformatZ w.now) out.models = .ok out.html := by
  simp only [mainRun] at h
  split at h
  · cases h
  · rename_i final hp
    split at h
    · cases h
    · rename_i html hr
      cases h
      exact ⟨hp, rfl, rfl, hr⟩

/-- Every record of a completed run came out of the filter loop and the
enrichment step, with its flags and name intact. -/
theorem mainRun_models_origin (w : WorldInput) (out : MainOutput)
    (h : mainRun w = .ok out) (m : MRec) (hm : m ∈ out.models) :
    ∃ items item m0, w.listing = .ok items ∧ item ∈ items ∧
      processItem item = .ok (some m0) ∧
      m.zero_cost = m0.zero_cost ∧ m.free_tag = m0.free_tag ∧ m.name = m0.name ∧
      (m.zero_cost || m.free_tag) = true := by
  rcases mainRun_ok w out h with ⟨hp, _, _, _⟩
  rcases pipelineModels_ok w out.models hp with ⟨items, models0, aa_index, hl, hb, _, hs⟩
  have hmem : m ∈ models0.map
      (enrichModel (load_aa_map w.map_file).1 aa_index) :=
    ((finalSortOf_ok_perm _ _ hs).mem_iff).mp hm
  rcases List.mem_map.mp hmem with ⟨m0, hm0, rfl⟩
  rcases buildModels_mem m0 items models0 hb hm0 with ⟨item, hitem, hproc⟩
  rcases enrichModel_keeps (load_aa_map w.map_file).1 aa_index m0 with ⟨hzc, hft, hname⟩
  rcases processItem_some item m0 hproc with ⟨_, _, hflags⟩
  refine ⟨items, item, m0, hl, hitem, hproc, hzc, hft, hname, ?_⟩
  rw [hzc, hft]
  exact hflags

/-! ### Character-wise characterisation of the HTML escaping -/

theorem replaceChar_append (t : Char) (r : List Char) (a b : List Char) :
    replaceChar t r (a ++ b) = replaceChar t r a ++ replaceChar t r b := by
  induction a with
  | nil => rfl
  | cons c cs ih => simp [replaceChar, ih, List.append_assoc]

theorem fiveChain_append (a b : List Char) :
    fiveChain (a ++ b) = fiveChain a ++ fiveChain b := by
  simp [fiveChain, replaceChar_append]

theorem escChars_append (a b : List Char) :
    escChars (a ++ b) = escChars a ++ escChars b := by
  induction a with
  | nil => rfl
  | cons c cs ih => simp [escChars, ih, List.append_assoc]

theorem fiveChain_single (c : Char) : fiveChain [c] = escChar c := by
  by_cases h1 : c = '&'
  · subst h1; decide
  by_cases h2 : c = '<'
  · subst h2; decide
  by_cases h3 : c = '>'
  · subst h3; decide
  by_cases h4 : c = (Char.ofNat 34)
  · subst h4; decide
  by_cases h5 : c = Char.ofNat 39
  · subst h5; decide
  simp [fiveChain, replaceChar, escChar, h1, h2, h3, h4, h5]

theorem fiveChain_eq_escChars (l : List Char) : fiveChain l = escChars l := by
  induction l with
  | nil => rfl
  | cons c cs ih =>
    have hsplit : fiveChain (c :: cs) = fiveChain [c] ++ fiveChain cs := by
      rw [show (c :: cs) = [c] ++ cs from rfl, fiveChain_append]
    rw [hsplit, fiveChain_single, ih]
    rfl

/-- The sequential replaces of `html.escape` amount to escaping each of the
five special characters in a single character-wise pass. -/
theorem htmlEscape_toList (s : String) : (htmlEscape s).toList = escChars s.toList :=
  fiveChain_eq_escChars s.toList

theorem escChar_no_specials (c : Char) :
    '<' ∉ escChar c ∧ '>' ∉ escChar c ∧ (Char.ofNat 34) ∉ escChar c ∧ Char.ofNat 39 ∉ escChar c := by
  by_cases h1 : c = '&'
  · subst h1; decide
  by_cases h2 : c = '<'
  · subst h2; decide
  by_cases h3 : c = '>'
  · subst h3; decide
  by_cases h4 : c = (Char.ofNat 34)
  · subst h4; decide
  by_cases h5 : c = Char.ofNat 39
  · subst h5; decide
  refine ⟨?_, ?_, ?_, ?_⟩ <;>
    simp only [escChar, h1, h2, h3, h4, h5, if_false, List.mem_singleton] <;>
    intro hh
  · exact h2 hh.symm
  · exact h3 hh.symm
  · exact h4 hh.symm
  · exact h5 hh.symm

theorem escChars_mem (l : List Char) (x : Char) (hx : x ∈ escChars l) :
    ∃ c ∈ l, x ∈ escChar c := by
  induction l with
  | nil => cases hx
  | cons c cs ih =>
    rcases List.mem_append.mp hx with hx | hx
    · exact ⟨c, List.mem_cons_self _ _, hx⟩
    · rcases ih hx with ⟨c', hc', hx'⟩
      exact ⟨c', List.mem_cons_of_mem _ hc', hx'⟩

/-- Escaped text never contains a raw `<`, `>`, `"` or `'`: every markup
character visible in the output of `esc` comes from the fixed template. -/
theorem esc_no_specials (v : JValue) :
    '<' ∉ (esc v).toList ∧ '>' ∉ (esc v).toList ∧ (Char.ofNat 34) ∉ (esc v).toList ∧
      Char.ofNat 39 ∉ (esc v).toList := by
  have hE : ∀ s : String, '<' ∉ (htmlEscape s).toList ∧ '>' ∉ (htmlEscape s).toList ∧
      (Char.ofNat 34) ∉ (htmlEscape s).toList ∧ Char.ofNat 39 ∉ (htmlEscape s).toList := by
    intro s
    rw [htmlEscape_toList]
    refine ⟨?_, ?_, ?_, ?_⟩ <;> intro hx <;>
      rcases escChars_mem _ _ hx with ⟨c, _, hc⟩
    · exact (escChar_no_specials c).1 hc
    · exact (escChar_no_specials c).2.1 hc
    · exact (escChar_no_specials c).2.2.1 hc
    · exact (escChar_no_specials c).2.2.2 hc
  cases v with
  | null => simp [esc]
  | jbool b => exact hE _
  | num q => exact hE _
  | str s => exact hE _
  | arr xs => exact hE _
  | obj kvs => exact hE _

/-- Escaping maps an embedded `<script>` to its fully escaped form. -/
theorem htmlEscape_script (s : String) (u v : List Char)
    (hs : s.toList = u ++ "<script>".toList ++ v) :
    "&lt;script&gt;".toList <:+: (htmlEscape s).toList := by
  rw [htmlEscape_toList, hs, escChars_append, escChars_append]
  refine ⟨escChars u, escChars v, ?_⟩
  have : escChars "<script>".toList = "&lt;script&gt;".toList := by decide
  rw [this]

/-! ### Locating interpolated text inside the rendered document -/

theorem infix_glue {α : Type} (l m a b : List α) (h : l <:+: m) :
    l <:+: a ++ m ++ b := by
  rcases h with ⟨s, t, hst⟩
  refine ⟨a ++ s, t ++ b, ?_⟩
  rw [← hst]
  simp [List.append_assoc]

theorem mem_joinSep_infix (sep : String) :
    ∀ (rows : List String) (r : String), r ∈ rows →
      r.toList <:+: (joinSep sep rows).toList := by
  intro rows
  induction rows with
  | nil => intro r hr; cases hr
  | cons a rest ih =>
    intro r hr
    cases rest with
    | nil =>
      rw [List.mem_singleton.mp hr]
      exact List.infix_refl _
    | cons b bs =>
      cases hr with
      | head =>
        refine ⟨[], (sep ++ joinSep sep (b :: bs)).toList, ?_⟩
        simp [joinSep, str_toList_append, List.append_assoc]
      | tail _ hr =>
        rcases ih r hr with ⟨s, t, hst⟩
        refine ⟨(a ++ sep).toList ++ s, t, ?_⟩
        simp only [joinSep, str_toList_append, List.append_assoc]
        rw [← hst]
        simp [List.append_assoc]

theorem rowHtml_ok_shape (m : MRec) (row : String) (h : rowHtml m = .ok row) :
    (esc (nameDispOf m)).toList <:+: row.toList ∧ row.toList ≠ [] := by
  simp only [rowHtml] at h
  split at h
  · cases h
  · rename_i pv hpv
    split at h
    · cases h
    · rename_i cv hcv
      cases h
      constructor
      · refine ⟨"\n        <li class=\"model\">\n          <h3>".toList,
          ("</h3>\n          <div class=\"meta\">" ++
            esc (if m.id.truthy then m.id else .str "") ++ " " ++ badgeHtmlOf m ++
            "</div>\n          " ++
            (if esc (if m.description.truthy then m.description else .str "") = ""
             then ""
             else "<p>" ++ esc (if m.description.truthy then m.description else .str "") ++
               "</p>") ++
            "\n          <div class=\"meta\">pricing: prompt=" ++ esc pv ++
            " completion=" ++ esc cv ++ "</div>\n          " ++ aaInfoOf m ++
            "\n        </li>\n        ").toList, ?_⟩
        simp [str_toList_append, List.append_assoc]
      · intro he
        rw [show ("\n        <li class=\"model\">\n          <h3>" ++ esc (nameDispOf m) ++
          "</h3>\n          <div class=\"meta\">" ++ esc (if m.id.truthy then m.id else .str "") ++
          " " ++ badgeHtmlOf m ++ "</div>\n          " ++
          (if esc (if m.description.truthy then m.description else .str "") = "" then ""
           else "<p>" ++ esc (if m.description.truthy then m.description else .str "") ++ "</p>") ++
          "\n          <div class=\"meta\">pricing: prompt=" ++ esc pv ++ " completion=" ++
          esc cv ++ "</div>\n          " ++ aaInfoOf m ++
          "\n        </li>\n        ").toList =
            "\n        <li class=\"model\">\n          <h3>".toList ++
            (esc (nameDispOf m) ++ "</h3>\n          <div class=\"meta\">" ++
              esc (if m.id.truthy then m.id else .str "") ++ " " ++ badgeHtmlOf m ++
              "</div>\n          " ++
              (if esc (if m.description.truthy then m.description else .str "") = "" then ""
               else "<p>" ++ esc (if m.description.truthy then m.description else .str "") ++
                 "</p>") ++
              "\n          <div class=\"meta\">pricing: prompt=" ++ esc pv ++ " completion=" ++
              esc cv ++ "</div>\n          " ++ aaInfoOf m ++
              "\n        </li>\n        ").toList
          from by simp [str_toList_append, List.append_assoc]] at he
        rcases List.append_eq_nil.mp he with ⟨h1, _⟩
        exact absurd h1 (by decide)

theorem render_ok_shape (gen : String) (ms : List MRec) (doc : String)
    (h : render_index_html gen ms = .ok doc) :
    ∃ rows, seqMap rowHtml ms = .ok rows ∧
      doc = pageTop ++ htmlEscape gen ++ pageMid ++
        (if joinSep "\n" rows = "" then "<li class=\"muted\">No models found.</li>"
         else joinSep "\n" rows) ++ pageTail := by
  simp only [render_index_html] at h
  split at h
  · cases h
  · rename_i rows hrows
    cases h
    exact ⟨rows, hrows, rfl⟩

theorem render_ok_row_infix (gen : String) (ms : List MRec) (doc : String) (m : MRec)
    (h : render_index_html gen ms = .ok doc) (hm : m ∈ ms) :
    ∃ row, rowHtml m = .ok row ∧ row.toList <:+: doc.toList ∧
      (esc (nameDispOf m)).toList <:+: doc.toList := by
  rcases render_ok_shape gen ms doc h with ⟨rows, hrows, rfl⟩
  rcases seqMap_mem rowHtml m ms rows hrows hm with ⟨row, hrowmem, hrow⟩
  have h1 : row.toList <:+: (joinSep "\n" rows).toList :=
    mem_joinSep_infix "\n" rows row hrowmem
  rcases rowHtml_ok_shape m row hrow with ⟨hname, hnil⟩
  have hne : ¬ (joinSep "\n" rows = "") := by
    intro he
    rw [he] at h1
    rcases h1 with ⟨s, t, hst⟩
    have : s ++ row.toList ++ t = [] := hst
    rcases List.append_eq_nil.mp this with ⟨h2, _⟩
    rcases List.append_eq_nil.mp h2 with ⟨_, h3⟩
    exact hnil h3
  rw [if_neg hne]
  have hglue : row.toList <:+:
      (pageTop ++ htmlEscape gen ++ pageMid ++ joinSep "\n" rows ++ pageTail).toList := by
    have := infix_glue row.toList (joinSep "\n" rows).toList
      (pageTop ++ htmlEscape gen ++ pageMid).toList pageTail.toList h1
    simpa [str_toList_append, List.append_assoc] using this
  exact ⟨row, hrow, hglue, hname.trans hglue⟩

/-! ## The claims -/

/-- C1: a fetched item's record is kept for rendering iff `zero_cost` OR
`free_tag` holds, where `zero_cost` is computed by parsing both
`pricing.prompt` and `pricing.completion` (invalid/missing parse to "unknown",
never zero) and requiring both to equal zero, and `free_tag` lower-cases
id/name/display_name and looks for the literal `":free"`; every record of a
completed run satisfies the disjunction; and the example record with
`prompt = 0`, `completion = "not-a-number"` and a `:free` id is not zero-cost
yet is included. -/
theorem filter_membership (item : JValue) (r : Option MRec)
    (h : processItem item = Except.ok r) :
    (∃ zc, zeroCostOf (pricingOf (to_dict item)) = Except.ok zc ∧
      r.isSome = (zc || freeTagOf (to_dict item))) ∧
    (∀ w out m, mainRun w = Except.ok out → m ∈ out.models →
      (m.zero_cost || m.free_tag) = true) ∧
    zeroCostOf (pricingOf (to_dict exItemC1)) = Except.ok false ∧
    freeTagOf (to_dict exItemC1) = true ∧
    processItem exItemC1 = Except.ok (some recC1) ∧
    recC1.zero_cost = false ∧ recC1.free_tag = true := by
  refine ⟨processItem_keeps_iff item r h, ?_, rfl, rfl, rfl, rfl, rfl⟩
  intro w out m hrun hm
  rcases mainRun_models_origin w out hrun m hm with
    ⟨_, _, _, _, _, _, _, _, _, hflag⟩
  exact hflag

theorem filter_membership_witness :
    ∃ zc, zeroCostOf (pricingOf (to_dict exItemC1)) = Except.ok zc ∧
      (some recC1).isSome = (zc || freeTagOf (to_dict exItemC1)) :=
  (filter_membership exItemC1 (some recC1) rfl).1

/-- C2: the final ordering partitions records by `is_valid_score`; when the
scored group's sort succeeds it is a permutation of the scored records in
`keyLeF` order (score descending, lower-cased name ascending as tie-break),
the unscored group is a permutation of the rest in name order, the scored
group precedes the unscored group, and on records A(90, "beta"),
B(90, "alpha"), C(no score) the resulting order is B, A, C. -/
theorem ranking_order (ms ns us : List MRec)
    (h1 : sortByKey numKey keyLeF (ms.filter (fun m => is_valid_score m)) =
      Except.ok ns)
    (h2 : sortByKey nonNumKey strLe (ms.filter (fun m => !(is_valid_score m))) =
      Except.ok us) :
    finalSortOf ms = Except.ok (ns ++ us) ∧
    ns.Perm (ms.filter (fun m => is_valid_score m)) ∧
    us.Perm (ms.filter (fun m => !(is_valid_score m))) ∧
    ns.Pairwise scoredOrder ∧
    us.Pairwise unscoredOrder ∧
    finalSortOf [recScoreA, recScoreB, recNoScore] =
      Except.ok [recScoreB, recScoreA, recNoScore] := by
  refine ⟨?_, sortByKey_ok_perm _ _ _ _ h1, sortByKey_ok_perm _ _ _ _ h2,
    sortByKey_ok_pairwise _ _ keyLeF_total keyLeF_trans _ _ h1,
    sortByKey_ok_pairwise _ _ strLe_total strLe_trans _ _ h2, rfl⟩
  simp only [finalSortOf]
  rw [h1, h2]

theorem ranking_order_witness :
    finalSortOf [recScoreA, recScoreB, recNoScore] =
      Except.ok ([recScoreB, recScoreA] ++ [recNoScore]) :=
  (ranking_order [recScoreA, recScoreB, recNoScore] [recScoreB, recScoreA]
    [recNoScore] rfl rfl).1

/-- C3 counterexample: score extraction does NOT select the entry whose name
matches "overall" case-insensitively — on `{"quality_index": 10,
"Overall": 50}` none of the exact preferred keys hits, so the fallback
returns the first numeric value 10 rather than the case-variant "Overall"
entry's 50. -/
theorem extract_overall_case_counterexample :
    extract_overall_from_evaluations cexEvalsC3 = some (.num 10) ∧
    PyFloat.num 10 ≠ PyFloat.num 50 :=
  ⟨rfl, by decide⟩

/-- C3 amended: extraction tries the exact, case-sensitive keys
`artificial_analysis_intelligence_index`, `artificial_analysis_overall`,
`overall` in order (taking the first float-convertible hit); with none of
them present it falls back to the first non-NaN numeric-looking value, else
reports the score absent; and a NaN or absent score is invalid (unscored
group) and displays as "-", never as zero. -/
theorem extract_overall_spec (kvs : List (String × JValue)) (v : JValue) (f : PyFloat)
    (h1 : kvs.lookup "artificial_analysis_intelligence_index" = none)
    (h2 : kvs.lookup "artificial_analysis_overall" = none)
    (h3 : kvs.lookup "overall" = some v)
    (h4 : pyFloat v = some f) :
    extract_overall_from_evaluations (.obj kvs) = some f ∧
    (∀ kvs' : List (String × JValue),
      kvs'.lookup "artificial_analysis_intelligence_index" = none →
      kvs'.lookup "artificial_analysis_overall" = none →
      kvs'.lookup "overall" = none →
      extract_overall_from_evaluations (.obj kvs') = fallbackScan kvs') ∧
    (∀ m : MRec, m.aa_overall = some PyFloat.nan →
      is_valid_score m = false ∧ score_displayOf m.aa_overall = "-") ∧
    (∀ m : MRec, m.aa_overall = none →
      is_valid_score m = false ∧ score_displayOf m.aa_overall = "-") := by
  refine ⟨?_, ?_, ?_, ?_⟩
  · simp [extract_overall_from_evaluations, prefScan, preferredKeys, h1, h2, h3, h4]
  · intro kvs' g1 g2 g3
    simp [extract_overall_from_evaluations, prefScan, preferredKeys, g1, g2, g3]
  · intro m hm
    exact ⟨by simp [is_valid_score, hm], by simp [score_displayOf, scoreValOf, hm]⟩
  · intro m hm
    exact ⟨by simp [is_valid_score, hm], by simp [score_displayOf, scoreValOf, hm]⟩

theorem extract_overall_spec_witness :
    extract_overall_from_evaluations (.obj [("overall", .num 7)]) = some (.num 7) :=
  (extract_overall_spec [("overall", .num 7)] (.num 7) (.num 7) rfl rfl rfl rfl).1

/-- C4 (code-bug evidence): neither fatal condition holds — the primary key
loads and the listing succeeds — yet the run aborts without writing output:
the kept record's numeric `name` makes the unscored sort key's `.lower()`
raise an uncaught `AttributeError`, so "non-zero exit exactly in the two
fatal cases" fails on the code. -/
theorem fatal_cases_not_exhaustive :
    load_api_key cexWorldC4.env_api_key cexWorldC4.key_file = Except.ok "k" ∧
    cexWorldC4.listing = Except.ok [cexItemC4] ∧
    mainRun cexWorldC4 = Except.error (MainErr.uncaught PyErr.attrError) ∧
    MainErr.uncaught PyErr.attrError ≠ MainErr.fatalNoKey ∧
    MainErr.uncaught PyErr.attrError ≠ MainErr.fatalListing :=
  ⟨rfl, rfl, rfl, by decide, by decide⟩

/-- C5: the rendered document is a fixed prefix, then the escaped generation
timestamp, then the rest; the `"Generated: "` marker occurs exactly once in
the fixed text, at the very end of the prefix (so the single timestamp sits
at the top); and the timestamp has the fixed form
`YYYY-MM-DDTHH:MM:SS[.ffffff]Z` — calendar date, time to the second, and the
literal UTC `Z` suffix. -/
theorem timestamp_embedded_once (t : UtcTime) (ms : List MRec) (doc : String)
    (h : render_index_html (isoformatZ t) ms = Except.ok doc) :
    (∃ mh, doc = pageTop ++ htmlEscape (isoformatZ t) ++ pageMid ++ mh ++ pageTail) ∧
    occCount "Generated: ".toList pageTop.toList = 1 ∧
    occCount "Generated: ".toList pageMid.toList = 0 ∧
    occCount "Generated: ".toList pageTail.toList = 0 ∧
    isoformatZ t = isoDate t ++ "T" ++ isoTimeOfDay t ++ "Z" ∧
    isoDate t = pad4 t.year ++ "-" ++ pad2 t.month ++ "-" ++ pad2 t.day ∧
    isoTimeOfDay t = pad2 t.hour ++ ":" ++ pad2 t.minute ++ ":" ++ pad2 t.second ++
      (if t.microsecond = 0 then "" else "." ++ pad6 t.microsecond) := by
  rcases render_ok_shape _ _ _ h with ⟨rows, _, rfl⟩
  exact ⟨⟨_, rfl⟩, rfl, rfl, rfl, rfl, rfl, rfl⟩

theorem timestamp_embedded_once_witness :
    ∃ mh, docC5 = pageTop ++ htmlEscape (isoformatZ t0) ++ pageMid ++ mh ++ pageTail :=
  (timestamp_embedded_once t0 [] docC5 rfl).1

/-- C6: escaping is character-wise over the five standard HTML specials
(`htmlEscape` equals the per-character `escChars` pass), so escaped upstream
text never contains a raw `<`, `>`, `"` or `'`; a record whose displayed name
contains `<script>` yields `&lt;script&gt;` inside the written document, and
no literal `<script>` can originate from the escaped record data. -/
theorem upstream_text_escaped (w : WorldInput) (out : MainOutput) (m : MRec)
    (s : String) (u v : List Char)
    (hrun : mainRun w = Except.ok out) (hm : m ∈ out.models)
    (hname : nameDispOf m = JValue.str s)
    (hs : s.toList = u ++ "<script>".toList ++ v) :
    (∀ x : JValue, '<' ∉ (esc x).toList ∧ '>' ∉ (esc x).toList ∧
      (Char.ofNat 34) ∉ (esc x).toList ∧ Char.ofNat 39 ∉ (esc x).toList) ∧
    (∀ x : String, (htmlEscape x).toList = escChars x.toList) ∧
    "&lt;script&gt;".toList <:+: out.html.toList ∧
    ¬ ("<script>".toList <:+: (esc (nameDispOf m)).toList) := by
  rcases mainRun_ok w out hrun with ⟨_, _, _, hrender⟩
  rcases render_ok_row_infix _ _ _ m hrender hm with ⟨row, hrow, hrowinf, hnameinf⟩
  refine ⟨esc_no_specials, htmlEscape_toList, ?_, ?_⟩
  · have hesc : "&lt;script&gt;".toList <:+: (esc (nameDispOf m)).toList := by
      rw [hname]
      exact htmlEscape_script s u v hs
    exact hesc.trans hnameinf
  · intro hcontra
    have hlt : '<' ∈ (esc (nameDispOf m)).toList :=
      hcontra.sublist.subset (by decide)
    exact (esc_no_specials (nameDispOf m)).1 hlt

theorem upstream_text_escaped_witness :
    "&lt;script&gt;".toList <:+: outC6.html.toList :=
  (upstream_text_escaped wC6 outC6 recC6 "a<script>b" "a".toList "b".toList rfl
    (List.mem_cons_self _ _) rfl (by decide)).2.2.1

/-- C7: when the bulk scoring-index fetch hits a network error or any
non-success status, `fetch_all_aa_models` yields the empty index for every
key, the whole run behaves exactly as if no scoring key had been set
(completing and writing the same output whenever that run does), and every
record of a completed run has an absent score. -/
theorem aa_fetch_failure_nonfatal (w : WorldInput)
    (hfail : aaRespFailed w.aa_resp = true) :
    (∀ k, fetch_all_aa_models k w.aa_resp = Except.ok []) ∧
    mainRun w = mainRun { w with env_aa_key := none } ∧
    (∀ out, mainRun w = Except.ok out → ∀ m ∈ out.models, m.aa_overall = none) := by
  have hfetch : ∀ k, fetch_all_aa_models k w.aa_resp = Except.ok [] := by
    intro k
    cases hr : w.aa_resp with
    | error e =>
      by_cases hk : k = "" <;> simp [fetch_all_aa_models, hk]
    | ok r =>
      have hst : ¬ (r.status = 200) := by
        simp only [aaRespFailed, hr] at hfail
        intro h200
        rw [if_pos h200] at hfail
        cases hfail
      by_cases hk : k = "" <;> simp [fetch_all_aa_models, hk, hst]
  have haa : (if ((w.env_aa_key.getD "") = "") then
      Except.ok ([] : List (String × JValue))
      else fetch_all_aa_models (w.env_aa_key.getD "") w.aa_resp) = Except.ok [] := by
    by_cases hk : (w.env_aa_key.getD "") = ""
    · rw [if_pos hk]
    · rw [if_neg hk, hfetch _]
  have hpipe : pipelineModels w = pipelineModels { w with env_aa_key := none } := by
    simp only [pipelineModels]
    rw [haa]
    rfl
  refine ⟨hfetch, ?_, ?_⟩
  · simp only [mainRun]
    rw [hpipe]
  · intro out hout m hm
    rcases mainRun_ok w out hout with ⟨hp, _, _, _⟩
    rcases pipelineModels_ok w out.models hp with
      ⟨items, models0, aa_index, hl, hb, hf, hsrt⟩
    have hidx : aa_index = [] := by
      rw [haa] at hf
      cases hf
      rfl
    subst hidx
    have hmem : m ∈ models0.map (enrichModel (load_aa_map w.map_file).1 []) :=
      (finalSortOf_ok_perm _ _ hsrt).mem_iff.mp hm
    rcases List.mem_map.mp hmem with ⟨m0, hm0, rfl⟩
    rcases buildModels_mem m0 items models0 hb hm0 with ⟨item, _, hproc⟩
    rcases processItem_some item m0 hproc with ⟨hov, _, _⟩
    rw [(enrichModel_nil _ m0).1, hov]

theorem aa_fetch_failure_nonfatal_witness :
    fetch_all_aa_models "s" wC7.aa_resp = Except.ok [] :=
  (aa_fetch_failure_nonfatal wC7 rfl).1 "s"

/-- C8 counterexample: with a malformed mapping file the warning is logged
and the mapping is empty, the run completes and writes output — but the sole
record still carries the guessed external id `"x:free"`, so it is rendered as
mapped, refuting "all records are unmapped". -/
theorem malformed_map_counterexample :
    load_aa_map cexWorldC8.map_file = ([], true) ∧
    mainModels cexWorldC8 = Except.ok [recC8] ∧
    recC8.aa_id.truthy = true ∧
    aaInfoOf recC8 = "<div class=\"meta\">AA id: x:free — score: -</div>" :=
  ⟨rfl, rfl, rfl, rfl⟩

/-- C8 amended: a mapping file with malformed JSON logs the parse warning, is
treated as the empty mapping, and the run proceeds exactly as though the file
were absent — it does not abort and still produces the same output; records
are not necessarily unmapped, since index matches and the guess fallback can
still assign external ids. -/
theorem malformed_map_nonfatal (w : WorldInput)
    (h : w.map_file = some (Except.error ())) :
    load_aa_map w.map_file = ([], true) ∧
    mainRun w = mainRun { w with map_file := none } := by
  constructor
  · rw [h]
    rfl
  · simp only [mainRun, pipelineModels]
    rw [h]
    rfl

theorem malformed_map_nonfatal_witness :
    load_aa_map cexWorldC8.map_file = ([], true) ∧
    mainRun cexWorldC8 = mainRun { cexWorldC8 with map_file := none } :=
  malformed_map_nonfatal cexWorldC8 rfl

/-- C9: the pipeline is deterministic — two completed runs on identical
inputs that differ only in the clock produce the same record list and count,
and byte-identical documents except for the embedded timestamp (same fixed
template parts and same models markup, with only the escaped timestamp
differing). -/
theorem run_deterministic_modulo_timestamp (w : WorldInput) (t1 t2 : UtcTime)
    (o1 o2 : MainOutput)
    (h1 : mainRun { w with now := t1 } = Except.ok o1)
    (h2 : mainRun { w with now := t2 } = Except.ok o2) :
    o1.models = o2.models ∧ o1.count = o2.count ∧
    o1.generated_at = isoformatZ t1 ∧ o2.generated_at = isoformatZ t2 ∧
    ∃ mh, o1.html = pageTop ++ htmlEscape (isoformatZ t1) ++ pageMid ++ mh ++ pageTail ∧
      o2.html = pageTop ++ htmlEscape (isoformatZ t2) ++ pageMid ++ mh ++ pageTail := by
  have hpipe : pipelineModels { w with now := t1 } =
      pipelineModels { w with now := t2 } := rfl
  rcases mainRun_ok _ _ h1 with ⟨hp1, hg1, hc1, hr1⟩
  rcases mainRun_ok _ _ h2 with ⟨hp2, hg2, hc2, hr2⟩
  have hm : o1.models = o2.models :=
    Except.ok.inj ((hp1.symm.trans hpipe).trans hp2)
  rcases render_ok_shape _ _ _ hr1 with ⟨rows1, hrows1, hdoc1⟩
  rcases render_ok_shape _ _ _ hr2 with ⟨rows2, hrows2, hdoc2⟩
  rw [← hm] at hrows2
  have hrows : rows1 = rows2 := Except.ok.inj (hrows1.symm.trans hrows2)
  subst hrows
  exact ⟨hm, by rw [hc1, hc2, hm], hg1, hg2, _, hdoc1, hdoc2⟩

theorem run_deterministic_modulo_timestamp_witness :
    (outC9 t0).models = (outC9 t1C9).models :=
  (run_deterministic_modulo_timestamp wC9 t0 t1C9 (outC9 t0) (outC9 t1C9) rfl rfl).1

/-- C10 counterexample: the exception fallback around the scored sort IS
reachable — in this run both records are placed in the scored group, the
second one's key raises (`(5).lower()` on its numeric name), the sort falls
back to the original order, and the records come out with score 1 before
score 2 although the descending key order demands the opposite. -/
theorem scored_sort_fallback_counterexample :
    mainModels wCex10 = Except.ok [recA10, recB10] ∧
    is_valid_score recA10 = true ∧ is_valid_score recB10 = true ∧
    numKey recB10 = Except.error PyErr.attrError ∧
    sortByKey numKey keyLeF [recA10, recB10] = Except.error PyErr.attrError ∧
    pfLe (pfNeg (PyFloat.num 2)) (pfNeg (PyFloat.num 1)) = true ∧
    pfLe (pfNeg (PyFloat.num 1)) (pfNeg (PyFloat.num 2)) = false :=
  ⟨rfl, rfl, rfl, rfl, rfl, by decide, by decide⟩

/-- C10 amended: the fallback is unreachable as long as every scored record's
name field is falsy or a string — then `float` and `.lower()` both succeed on
every scored record, the decorated sort raises nothing, and the documented
ordering is used. -/
theorem scored_sort_key_total (ms us : List MRec)
    (h : ∀ m ∈ ms.filter (fun m => is_valid_score m),
      ∃ s, lowerOrEmpty m.name = Except.ok s)
    (hus : sortByKey nonNumKey strLe (ms.filter (fun m => !(is_valid_score m))) =
      Except.ok us) :
    ∃ ns, sortByKey numKey keyLeF (ms.filter (fun m => is_valid_score m)) =
        Except.ok ns ∧
      finalSortOf ms = Except.ok (ns ++ us) := by
  have hkeys : ∀ m ∈ ms.filter (fun m => is_valid_score m),
      ∃ k, numKey m = Except.ok k := by
    intro m hm
    rcases h m hm with ⟨s, hs⟩
    have hvalid : is_valid_score m = true := (List.mem_filter.mp hm).2
    unfold is_valid_score at hvalid
    cases hov : m.aa_overall with
    | none => rw [hov] at hvalid; cases hvalid
    | some f =>
      refine ⟨(pfNeg f, s), ?_⟩
      unfold numKey
      rw [hov, hs]
  rcases sortByKey_ok_of_forall numKey keyLeF _ hkeys with ⟨ns, hns⟩
  refine ⟨ns, hns, ?_⟩
  simp only [finalSortOf]
  rw [hns, hus]

theorem scored_sort_key_total_witness :
    ∃ ns, sortByKey numKey keyLeF
        ([recScoreA].filter (fun m => is_valid_score m)) = Except.ok ns ∧
      finalSortOf [recScoreA] = Except.ok (ns ++ []) :=
  scored_sort_key_total [recScoreA] []
    (fun m hm => ⟨"beta", by rw [List.eq_of_mem_singleton hm]; rfl⟩) rfl

/-- C2 counterexample: a completed run in which both records are scored, yet
the final ordering places score 1 before score 2 — not score-descending —
because the scored-group sort key raised on a numeric name and the code fell
back to the group's original order. -/
theorem ranking_order_counterexample :
    mainModels wCex10 = Except.ok [recA10, recB10] ∧
    is_valid_score recA10 = true ∧ is_valid_score recB10 = true ∧
    recA10.aa_overall = some (PyFloat.num 1) ∧
    recB10.aa_overall = some (PyFloat.num 2) ∧
    pfLe (pfNeg (PyFloat.num 2)) (pfNeg (PyFloat.num 1)) = true ∧
    pfLe (pfNeg (PyFloat.num 1)) (pfNeg (PyFloat.num 2)) = false :=
  ⟨rfl, rfl, rfl, rfl, rfl, by decide, by decide⟩
